import Mathlib

/-!
Shallow embedding of `twisted/positioning/nmea.py`: the NMEA 0183 checksum
validator and sentence decoder (`NMEAProtocol.lineReceived`), and the stateful
semantic adapter (`NMEAAdapter`), together with theorems settling the
specification claims against it.

Modelling conventions:
* Python strings are `List Char` (`Chars`); `ord` is `Char.toNat`.
* Python dicts are association lists over `String` keys (`Dict`), with
  first-occurrence lookup; the adapter never creates duplicate keys.
* Numeric NMEA values are rationals (`ℚ`); `float(...)` string conversion is
  modelled exactly on the digit strings the protocol carries.
* Python exceptions are an explicit error type threaded through `Except`.
  Where an exception escapes `sentenceReceived`, the adapter value afterwards
  is not observed by any theorem, so the embedding returns only the error.
* `twisted.positioning.base` and `twisted.positioning.ipositioning` are not
  part of the repository sources; the value objects (`Satellite`, `Heading`,
  `Coordinate`, ...) and the callback contract are modelled from the spec and
  are marked as such in their doc comments.
-/

set_option synthInstance.maxSize 4000

attribute [local semireducible] Rat.add Rat.mul Rat.inv Rat.sub Rat.ofScientific

deriving instance DecidableEq for Except

namespace Nmea

/-- Python string values carried in NMEA sentences. -/
abbrev Chars := List Char

/-- Python exceptions that the embedded code can raise.  `invalidSentence`
is `base.InvalidSentence`, `invalidChecksum` is `base.InvalidChecksum`; the
rest are builtin Python exception classes. -/
inductive PyErr where
  | invalidSentence
  | invalidChecksum
  | valueError
  | keyError
  | typeError
  | indexError
  | attributeError
  deriving DecidableEq, Repr

/-- Numeric value of a decimal digit character. -/
def digitVal (c : Char) : Nat := c.toNat - '0'.toNat

/-- Value of a (nonempty) decimal digit string. -/
def natOfDigits (l : Chars) : Nat := l.foldl (fun n c => 10 * n + digitVal c) 0

/-- True when `l` is a nonempty string of decimal digits. -/
def allDigits (l : Chars) : Bool := decide (l ≠ []) && l.all Char.isDigit

/-- Python `int(s)` restricted to the plain (optionally negated) digit strings
NMEA fields carry; everything else is a `ValueError` (`none`). -/
def pyIntChars? (l : Chars) : Option Int :=
  if allDigits l then some (natOfDigits l)
  else
    match l with
    | '-' :: rest => if allDigits rest then some (-(natOfDigits rest : Int)) else none
    | _ => none

/-- Python `float("<ip>.<fp>")` on digit parts: at least one digit overall. -/
def pyRatParts? (ip fp : Chars) : Option ℚ :=
  if (ip.all Char.isDigit && fp.all Char.isDigit) && decide (ip ≠ [] ∨ fp ≠ []) then
    some ((natOfDigits ip : ℚ) + (natOfDigits fp : ℚ) / (10 : ℚ) ^ fp.length)
  else none

/-- Prepend a character onto the first group of a split result. -/
def splitCharCons (c : Char) (r : List Chars) : List Chars :=
  match r with
  | [] => [[c]]
  | g :: gs => (c :: g) :: gs

/-- Python `str.split(sep)` for a single-character separator. -/
def splitChar (sep : Char) : Chars → List Chars
  | [] => [[]]
  | c :: cs =>
    if c = sep then [] :: splitChar sep cs
    else splitCharCons c (splitChar sep cs)

/-- Python `float(s)` restricted to the decimal forms NMEA fields carry
(optional leading minus, digits with at most one decimal point). -/
def pyFloatChars? (l : Chars) : Option ℚ :=
  match l with
  | '-' :: rest =>
    (match splitChar '.' rest with
     | [ip] => (pyRatParts? ip []).map (fun q => -q)
     | [ip, fp] => (pyRatParts? ip fp).map (fun q => -q)
     | _ => none)
  | _ =>
    match splitChar '.' l with
    | [ip] => pyRatParts? ip []
    | [ip, fp] => pyRatParts? ip fp
    | _ => none

/-- Value of a hexadecimal digit character, case-insensitive. -/
def hexDigitVal? (c : Char) : Option Nat :=
  if c.isDigit then some (digitVal c)
  else if 'a' ≤ c.toLower ∧ c.toLower ≤ 'f' then some (c.toLower.toNat - 'a'.toNat + 10)
  else none

/-- Helper for `hexDigitsVal?`. -/
def hexValAux : Chars → Nat → Option Nat
  | [], n => some n
  | c :: cs, n =>
    match hexDigitVal? c with
    | some d => hexValAux cs (16 * n + d)
    | none => none

/-- Value of a nonempty string of (case-insensitive) hex digits. -/
def hexDigitsVal? (l : Chars) : Option Nat :=
  if l = [] then none else hexValAux l 0

/-- True for the ASCII whitespace characters Python's `int()` strips. -/
def isPySpace (c : Char) : Bool :=
  c = ' ' ∨ c = '\t' ∨ c = '\n' ∨ c = '\x0d' ∨ c = '\x0b' ∨ c = '\x0c'

/-- Python `str.strip()`: remove leading and trailing whitespace. -/
def stripPy (l : Chars) : Chars :=
  ((l.dropWhile isPySpace).reverse.dropWhile isPySpace).reverse

/-- The digit part accepted after the optional sign by `int(s, 16)`: an
optional `0x`/`0X` prefix followed by at least one hex digit. -/
def hexBody? : Chars → Option Nat
  | '0' :: x :: rest =>
    if x = 'x' ∨ x = 'X' then hexDigitsVal? rest
    else hexDigitsVal? ('0' :: x :: rest)
  | l => hexDigitsVal? l

/-- Python 2 `int(s, 16)`: surrounding whitespace is stripped, an optional
`+`/`-` sign and an optional `0x`/`0X` prefix are accepted before the
(case-insensitive) hex digits, and the result may be negative; anything
else — including the empty string — is a `ValueError` (`none`). -/
def pyIntHex? (l : Chars) : Option Int :=
  match stripPy l with
  | '+' :: rest => (hexBody? rest).map (fun n => (n : Int))
  | '-' :: rest => (hexBody? rest).map (fun n => -(n : Int))
  | t => (hexBody? t).map (fun n => (n : Int))

/-- Python `reduce(operator.xor, (ord(x) for x in source))`: XOR of the
character ordinals, with no initial element — the caller must treat the
empty list separately, as `reduce` raises `TypeError` on it. -/
def xorOrds (l : Chars) : Nat :=
  match l with
  | [] => 0
  | c :: cs => cs.foldl (fun a x => a ^^^ x.toNat) c.toNat

/-- Embeds `_validateChecksum` (nmea.py lines 68-84).  Python's `s[-3]`
raises `IndexError` on strings shorter than 3; `s[-2:]` is the last two
characters, parsed by `int(·, 16)` with its whitespace/sign/prefix
tolerance; `s[1:-3]` is everything strictly between the first character and
the `*`.  The reference value is computed before the XOR, so a malformed hex
suffix raises `ValueError` first, and an empty XOR source raises `TypeError`
from `reduce`. -/
def validateChecksum (sentence : Chars) : Except PyErr Unit :=
  if sentence.length < 3 then .error .indexError
  else if sentence.get? (sentence.length - 3) = some '*' then
    match pyIntHex? (sentence.drop (sentence.length - 2)) with
    | none => .error .valueError
    | some reference =>
      if (sentence.drop 1).take (sentence.length - 4) = [] then .error .typeError
      else if (xorOrds ((sentence.drop 1).take (sentence.length - 4)) : Int) ≠ reference then
        .error .invalidChecksum
      else .ok ()
  else .ok ()

/-- Characters strictly between the leading `$` and the checksum `*`, as the
spec describes them (used to state the checksum claims). -/
def betweenDollarStar (sentence : Chars) : Chars :=
  (sentence.drop 1).take (sentence.length - 4)

/-- XOR as the spec words it: a reduction over all characters between `$`
and `*`, which on the empty payload is the XOR identity `0`. -/
def specXor (l : Chars) : Nat := l.foldr (fun c a => c.toNat ^^^ a) 0

/-- Python dicts with string keys, as association lists.  The embedded code
never creates duplicate keys, and insertion order is preserved (irrelevant to
every claim, which observe dicts only through lookup). -/
abbrev Dict (α : Type) := List (String × α)

/-- Dict lookup (`d.get(k)` / `d[k]` — the caller distinguishes the
`KeyError` case by matching on `none`). -/
def dget {α : Type} : Dict α → String → Option α
  | [], _ => none
  | (k2, v) :: d, k => if k2 = k then some v else dget d k

/-- Python `k in d`. -/
def dmem {α : Type} (d : Dict α) (k : String) : Bool := (dget d k).isSome

/-- Python `d[k] = v`: replace in place, or append a fresh key. -/
def dset {α : Type} : Dict α → String → α → Dict α
  | [], k, v => [(k, v)]
  | (k2, v2) :: d, k, v => if k2 = k then (k, v) :: d else (k2, v2) :: dset d k v

/-- Python `del d[k]` on a key known to be present (callers that can hit a
missing key model the `KeyError` themselves). -/
def ddel {α : Type} : Dict α → String → Dict α
  | [], _ => []
  | (k2, v2) :: d, k => if k2 = k then ddel d k else (k2, v2) :: ddel d k

/-- Python `d.update(other)`. -/
def dupdate {α : Type} (d other : Dict α) : Dict α :=
  other.foldl (fun acc p => dset acc p.1 p.2) d

/-- The keys of a dict, in insertion order (iterating a Python dict). -/
def dkeys {α : Type} (d : Dict α) : List String := d.map (·.1)

/-- Which angle a coordinate value measures (`base.Angles`). -/
inductive AngleKind where
  | latitude
  | longitude
  | variation
  deriving DecidableEq, Repr

/-- Modelled from the spec: the `base.Satellite` value object — a visible
satellite carrying its PRN identifier and signal metrics, plus the boolean
"used in fix" flag set during aggregation (spec §3).  The PRN identifier is
stored as an integer so that membership in the GSA used-PRN integer set is
meaningful; azimuth, elevation and SNR are kept as the raw strings the GSV
fixer passes to the constructor (the spec treats them as opaque). -/
structure Satellite where
  identifier : Int
  azimuth : Option Chars
  elevation : Option Chars
  signalToNoiseRatio : Option Chars
  isUsed : Option Bool
  deriving DecidableEq, Repr

/-- Typed values held in the adapter's state and scratch dicts.  The domain
value objects (`Coordinate`, `Altitude`, `Speed`, `Heading`, `PositionError`,
`BeaconInformation`) are external to the repository and modelled from the
spec (§3: typed value objects with construction, sign assignment and set
union); `heading` carries the course (the `_angle` attribute) and the
magnetic variation, `posError` the three dilution-of-precision components,
`beacons` the satellite set of a `BeaconInformation`, `prns` the set of
used-satellite PRNs built by the GSA fixer (modelled as a list; only
membership and emptiness are ever used). -/
inductive PyVal where
  | timeOfDay (h mi s : Nat)
  | calDate (y mo d : Nat)
  | dateTime (y mo d h mi s : Nat)
  | coord (angle : ℚ) (kind : AngleKind)
  | altitude (v : ℚ)
  | speed (v : ℚ)
  | heading (course : Option ℚ) (variation : Option ℚ)
  | posError (pdop hdop vdop : Option ℚ)
  | beacons (sats : List Satellite)
  | prns (used : List Int)
  deriving DecidableEq, Repr

/-- Python 2 truthiness of the values the adapter passes through `or`:
`datetime.time` is falsy exactly at midnight, `datetime.date` is always
truthy, a set is falsy when empty, and plain objects are truthy. -/
def PyVal.truthy : PyVal → Bool
  | .timeOfDay h mi s => !(h == 0 && mi == 0 && s == 0)
  | .prns used => !used.isEmpty
  | _ => true

/-- Python `x or y` on optional values (`None` and falsy values fall
through to the right operand). -/
def pyOr (x y : Option PyVal) : Option PyVal :=
  match x with
  | some v => if v.truthy then some v else y
  | none => y

/-- A decoded `NMEASentence`: the sparse field map built by
`NMEAProtocol.lineReceived`, including the `"type"` key.  Fields absent from
the map read as `none`, mirroring `_BaseSentence.__getattr__` returning
`None` (modelled from the spec §4.2: absent fields read as a "not present"
sentinel). -/
structure Sentence where
  data : Dict Chars
  deriving DecidableEq, Repr

/-- Attribute access on the current sentence. -/
def Sentence.get (s : Sentence) (k : String) : Option Chars := dget s.data k

/-- The spec's present-field set: iterating the sentence data keys
(`_BaseSentence.presentAttributes`, modelled from the spec §4.2). -/
def Sentence.presentAttributes (s : Sentence) : List String := dkeys s.data

/-- Embeds `NMEASentence._isFirstGSVSentence`. -/
def Sentence.isFirstGSV (s : Sentence) : Bool :=
  s.get "GSVSentenceIndex" == some ['1']

/-- Embeds `NMEASentence._isLastGSVSentence` — note `None == None` is true
in Python, so a sentence with neither field counts as "last". -/
def Sentence.isLastGSV (s : Sentence) : Bool :=
  s.get "GSVSentenceIndex" == s.get "numberOfGSVSentences"

/-- Convenience constructor for concrete sentences in theorems. -/
def mkSentence (l : List (String × String)) : Sentence :=
  ⟨l.map (fun p => (p.1, p.2.toList))⟩

/-- Adapter state: `_state` (long-lived) and `_sentenceData` (the scratch
map).  Faithful to the source, the scratch map is NOT reset between
sentences: it is emptied only by `__init__` and `clear()` (nmea.py lines
389, 744); `sentenceReceived` (lines 747-768) never empties it. -/
structure Adapter where
  state : Dict PyVal
  scratch : Dict PyVal
  deriving DecidableEq, Repr

/-- Embeds `NMEAAdapter.clear` (and the initial state of `__init__`). -/
def clearAdapter : Adapter := { state := [], scratch := [] }

/-- Embeds `_fixTimestamp`: `timestamp.split('.')[0]` parsed with
`strptime('%H%M%S')` on the canonical six-digit `HHMMSS` form (shorter
strptime matches are not exercised by NMEA timestamps and not modelled);
an attribute read of a missing field would be `None.split`,
an `AttributeError`. -/
def fixTimestamp (s : Sentence) (a : Adapter) : Except PyErr Adapter :=
  match s.get "timestamp" with
  | none => .error .attributeError
  | some v =>
    let t := (splitChar '.' v).headD []
    if t.length = 6 ∧ t.all Char.isDigit then
      let h := natOfDigits (t.take 2)
      let mi := natOfDigits ((t.drop 2).take 2)
      let sec := natOfDigits (t.drop 4)
      if h ≤ 23 ∧ mi ≤ 59 ∧ sec ≤ 61 then
        .ok { a with scratch := dset a.scratch "_time" (.timeOfDay h mi sec) }
      else .error .valueError
    else .error .valueError

/-- Days per month, for `datetime.date` validity. -/
def daysInMonth (y mo : Nat) : Nat :=
  if mo = 2 then (if y % 4 = 0 ∧ (y % 100 ≠ 0 ∨ y % 400 = 0) then 29 else 28)
  else if mo = 4 ∨ mo = 6 ∨ mo = 9 ∨ mo = 11 then 30
  else 31

/-- Embeds `_fixDatestamp` under the source's default
`DATESTAMP_HANDLING = INTELLIGENT_DATESTAMPS` with
`INTELLIGENT_DATE_THRESHOLD = 80`: a two-digit year above 80 is 19xx,
otherwise 20xx.  `datetime.date` raises `ValueError` on an invalid
day/month. -/
def fixDatestamp (s : Sentence) (a : Adapter) : Except PyErr Adapter :=
  match s.get "datestamp" with
  | none => .error .attributeError
  | some v =>
    let dayS := v.take 2
    let monthS := (v.drop 2).take 2
    let yearS := (v.drop 4).take 2
    if (allDigits dayS && allDigits monthS && allDigits yearS) then
      let day := natOfDigits dayS
      let mo := natOfDigits monthS
      let y2 := natOfDigits yearS
      let y := if y2 > 80 then 1900 + y2 else 2000 + y2
      if 1 ≤ mo ∧ mo ≤ 12 ∧ 1 ≤ day ∧ day ≤ daysInMonth y mo then
        .ok { a with scratch := dset a.scratch "_date" (.calDate y mo day) }
      else .error .valueError
    else .error .valueError

/-- The value-level work of `_fixCoordinateFloat`: `left, right =
v.split('.')` (a `ValueError` unless there is exactly one dot), `degrees =
int(left[:-2])`, `minutes = float(left[-2:] + '.' + right)`, result
`degrees + minutes/60`.  The `int` is evaluated before the `float`, so its
failure wins. -/
def parseCoordinate (v : Chars) : Except PyErr ℚ :=
  match splitChar '.' v with
  | [left, right] =>
    match pyIntChars? (left.take (left.length - 2)) with
    | none => .error .valueError
    | some degrees =>
      match pyRatParts? (left.drop (left.length - 2)) right with
      | none => .error .valueError
      | some minutes => .ok ((degrees : ℚ) + minutes / 60)
  | _ => .error .valueError

/-- `base.Coordinate.ANGLE_TYPE_NAMES` (modelled from the spec: the schema
field names `latitudeFloat`/`longitudeFloat` and the scratch keys
`latitude`/`longitude`). -/
def angleTypeName : AngleKind → String
  | .latitude => "latitude"
  | .longitude => "longitude"
  | .variation => "variation"

/-- Embeds `_fixCoordinateFloat` (nmea.py lines 439-455): decode the
magnitude of the `<name>Float` field and store an (unsigned, so far)
`Coordinate` under the scratch key `<name>`. -/
def fixCoordinateFloat (kind : AngleKind) (s : Sentence) (a : Adapter) :
    Except PyErr Adapter :=
  match s.get (angleTypeName kind ++ "Float") with
  | none => .error .attributeError
  | some v =>
    match parseCoordinate v with
    | .ok q =>
      .ok { a with scratch := dset a.scratch (angleTypeName kind) (.coord q kind) }
    | .error e => .error e

/-- Embeds the `COORDINATE_SIGNS` lookup on `hemisphere.upper()`:
`N`/`E` map to `+1`, `S`/`W` to `-1`, and a `KeyError` is re-raised as
`ValueError("bad hemisphere/direction")`. -/
def signFromLetter (hemi : Chars) : Except PyErr Int :=
  let u := hemi.map Char.toUpper
  if u = ['N'] ∨ u = ['E'] then .ok 1
  else if u = ['S'] ∨ u = ['W'] then .ok (-1)
  else .error .valueError

/-- Embeds `_getHemisphereSign` (nmea.py lines 490-513): pick the hemisphere
field for the coordinate type, then look its uppercase form up in
`COORDINATE_SIGNS`.  A missing hemisphere field would be `None.upper()`, an
`AttributeError`. -/
def getHemisphereSign (kind : AngleKind) (s : Sentence) : Except PyErr Int :=
  let hemisphereKey :=
    match kind with
    | .latitude => "latitudeHemisphere"
    | .longitude => "longitudeHemisphere"
    | .variation => "magneticVariationDirection"
  match s.get hemisphereKey with
  | none => .error .attributeError
  | some hemi => signFromLetter hemi

/-- Modelled from the spec: sign assignment on the typed value objects
(`setSign`).  On a `Coordinate` the sign is applied to the magnitude; on a
`Heading` it is applied to the magnetic variation (a heading with no
variation yet cannot take a sign). -/
def setSignPy (sign : Int) (v : PyVal) : Except PyErr PyVal :=
  match v with
  | .coord q kind => .ok (.coord ((sign : ℚ) * |q|) kind)
  | .heading c variation =>
    match variation with
    | some q => .ok (.heading c (some ((sign : ℚ) * |q|)))
    | none => .error .valueError
  | _ => .error .attributeError

/-- Embeds `_fixHemisphereSign` (nmea.py lines 458-479): read the sign for
the coordinate type and apply it to the scratch value under
`sentenceDataKey` (a `KeyError` if the magnitude has not been stored
first). -/
def fixHemisphereSign (kind : AngleKind) (sentenceDataKey : String)
    (s : Sentence) (a : Adapter) : Except PyErr Adapter :=
  match getHemisphereSign kind s with
  | .error e => .error e
  | .ok sign =>
    match dget a.scratch sentenceDataKey with
    | none => .error .keyError
    | some v =>
      match setSignPy sign v with
      | .ok v2 => .ok { a with scratch := dset a.scratch sentenceDataKey v2 }
      | .error e => .error e

/-- Embeds `_convert` for the two altitude-like fields: `float` the raw
string and wrap it in a `base.Altitude` under the same key. -/
def convertAltitude (key : String) (s : Sentence) (a : Adapter) :
    Except PyErr Adapter :=
  match s.get key with
  | none => .error .typeError
  | some v =>
    match pyFloatChars? v with
    | some q => .ok { a with scratch := dset a.scratch key (.altitude q) }
    | none => .error .valueError

/-- Modelled from the spec: `base.MPS_PER_KNOT`, the canonical
knots-to-metres-per-second factor (1852/3600). -/
def MPS_PER_KNOT : ℚ := 463 / 900

/-- Modelled from the spec: `base.MPS_PER_KPH` (1000/3600). -/
def MPS_PER_KPH : ℚ := 5 / 18

/-- The `UNIT_CONVERTERS` table: a unit letter to a converter producing a
`base.Speed`; unknown units are a `KeyError`.  `float(None)` — a converter
applied to a missing source field — is a `TypeError`. -/
def applyUnitConverter (unit : Chars) (rawValue : Option Chars) : Except PyErr PyVal :=
  let factor : Option ℚ :=
    if unit = ['N'] then some MPS_PER_KNOT
    else if unit = ['K'] then some MPS_PER_KPH
    else none
  match factor with
  | none => .error .keyError
  | some f =>
    match rawValue with
    | none => .error .typeError
    | some v =>
      match pyFloatChars? v with
      | some q => .ok (.speed (q * f))
      | none => .error .valueError

/-- Embeds `_fixUnits` for the two `...Units` fixers: the unit letter comes
from the sentence's `unitKey` field, the value key is `unitKey` minus the
`"Units"` suffix, and nothing at all happens when the unit is already
acceptable (`M`). -/
def fixUnitsFromField (unitKey valueKey : String) (s : Sentence) (a : Adapter) :
    Except PyErr Adapter :=
  match s.get unitKey with
  | none => .error .typeError
  | some unit =>
    if unit = ['M'] then .ok a
    else
      match applyUnitConverter unit (s.get valueKey) with
      | .ok v => .ok { a with scratch := dset a.scratch valueKey v }
      | .error e => .error e

/-- Embeds the `speedInKnots` fixer: `_fixUnits(valueKey='speed',
sourceKey='speedInKnots', unit='N')` — the knots converter applied
unconditionally. -/
def fixSpeed (s : Sentence) (a : Adapter) : Except PyErr Adapter :=
  match applyUnitConverter ['N'] (s.get "speedInKnots") with
  | .ok v => .ok { a with scratch := dset a.scratch "speed" v }
  | .error e => .error e

/-- The attribute assignments of the `STATEFUL_UPDATE` table, on the modelled
composite value objects.  `setattr` on a value of an unexpected shape is
unreachable (those state keys only ever hold the matching object). -/
def setStatefulAttr (attr : String) (q : ℚ) (v : PyVal) : Except PyErr PyVal :=
  match attr, v with
  | "_angle", .heading _ variation => .ok (.heading (some q) variation)
  | "variation", .heading course _ => .ok (.heading course (some q))
  | "pdop", .posError _ hdop vdop => .ok (.posError (some q) hdop vdop)
  | "hdop", .posError pdop _ vdop => .ok (.posError pdop (some q) vdop)
  | "vdop", .posError pdop hdop _ => .ok (.posError pdop hdop (some q))
  | _, _ => .error .typeError

/-- Embeds `_statefulUpdate` (nmea.py lines 556-570) for one row of
`STATEFUL_UPDATE`: seed the scratch entry under `stateKey` from existing
adapter state (or the factory default) unless this sentence already has it,
then convert this sentence's field and set one attribute on it.  All the
table's converters reduce to `float` on the raw string (the
`magneticVariation` row wraps the float in a variation `Angle`, which the
model stores as the rational itself). -/
def statefulUpdate (sentenceKey stateKey attr : String) (factory : PyVal)
    (s : Sentence) (a : Adapter) : Except PyErr Adapter :=
  let scratch :=
    if dmem a.scratch stateKey then a.scratch
    else dset a.scratch stateKey ((dget a.state stateKey).getD factory)
  match s.get sentenceKey with
  | none => .error .typeError
  | some v =>
    match pyFloatChars? v with
    | none => .error .valueError
    | some q =>
      match setStatefulAttr attr q ((dget scratch stateKey).getD factory) with
      | .ok v2 => .ok { a with scratch := dset scratch stateKey v2 }
      | .error e => .error e

/-- One GSV satellite slot (`_fixGSV`'s loop body): the slot is skipped —
`continue`, not `break` — when its PRN or SNR field is absent; otherwise a
`base.Satellite` is constructed from the four slot fields (the constructor
parses the PRN as an integer; modelled from the spec). -/
def gsvSlot (s : Sentence) (i : Nat) : Except PyErr (Option Satellite) :=
  let prn := s.get ("satellitePRN_" ++ toString i)
  let az := s.get ("azimuth_" ++ toString i)
  let el := s.get ("elevation_" ++ toString i)
  let snr := s.get ("signalToNoiseRatio_" ++ toString i)
  match prn, snr with
  | some p, some n =>
    match pyIntChars? p with
    | some idn =>
      .ok (some { identifier := idn, azimuth := az, elevation := el,
                  signalToNoiseRatio := some n, isUsed := none })
    | none => .error .valueError
  | _, _ => .ok none

/-- The satellite list a GSV sentence contributes: slots 0..3 in order, each
independently skipped when incomplete (`_fixGSV`, nmea.py lines 626-649). -/
def fixGSVsats (s : Sentence) : Except PyErr (List Satellite) :=
  (List.range 4).foldlM
    (fun acc i => (gsvSlot s i).map (fun o => acc ++ o.toList)) []

/-- Embeds `_fixGSV`: stash the fresh partial beacon set under the
`_partialBeaconInformation` scratch key.  (In Python the empty
`BeaconInformation` is stored before the loop and mutated; if a slot raises,
the exception escapes `sentenceReceived` and no theorem observes the
adapter afterwards, so storing the finished list is equivalent.) -/
def fixGSV (s : Sentence) (a : Adapter) : Except PyErr Adapter :=
  match fixGSVsats s with
  | .ok sats =>
    .ok { a with scratch := dset a.scratch "_partialBeaconInformation" (.beacons sats) }
  | .error e => .error e

/-- Embeds `_fixGSA` (nmea.py lines 652-665): collect the present
`usedSatellitePRN_0..11` fields as integers under the `_usedPRNs` scratch
key.  The Python value is a set; only membership and emptiness are ever
used, so a list in slot order is a faithful model. -/
def fixGSA (s : Sentence) (a : Adapter) : Except PyErr Adapter :=
  match
    (List.range 12).foldlM
      (fun (acc : List Int) i =>
        match s.get ("usedSatellitePRN_" ++ toString i) with
        | some p =>
          match pyIntChars? p with
          | some n => Except.ok (acc ++ [n])
          | none => Except.error PyErr.valueError
        | none => Except.ok acc) []
  with
  | .ok prnList => .ok { a with scratch := dset a.scratch "_usedPRNs" (.prns prnList) }
  | .error e => .error e

/-- Embeds `_sentenceSpecificFix` with the `SPECIFIC_SENTENCE_FIXES`
table: only `GPGSV` and `GPGSA` have a specific fixer. -/
def sentenceSpecificFix (s : Sentence) (a : Adapter) : Except PyErr Adapter :=
  match s.get "type" with
  | some t =>
    if t = "GPGSV".toList then fixGSV s a
    else if t = "GPGSA".toList then fixGSA s a
    else .ok a
  | none => .ok a

/-- The `FIXERS` dispatch table (nmea.py lines 683-734): one conversion per
known field name; field names with no fixer are left alone (`FIXERS.get(key,
None)`). -/
def applyFixer (key : String) (s : Sentence) (a : Adapter) : Except PyErr Adapter :=
  if key = "type" then sentenceSpecificFix s a
  else if key = "timestamp" then fixTimestamp s a
  else if key = "datestamp" then fixDatestamp s a
  else if key = "latitudeFloat" then fixCoordinateFloat .latitude s a
  else if key = "latitudeHemisphere" then fixHemisphereSign .latitude "latitude" s a
  else if key = "longitudeFloat" then fixCoordinateFloat .longitude s a
  else if key = "longitudeHemisphere" then fixHemisphereSign .longitude "longitude" s a
  else if key = "altitude" then convertAltitude "altitude" s a
  else if key = "altitudeUnits" then fixUnitsFromField "altitudeUnits" "altitude" s a
  else if key = "heightOfGeoidAboveWGS84" then convertAltitude "heightOfGeoidAboveWGS84" s a
  else if key = "heightOfGeoidAboveWGS84Units" then
    fixUnitsFromField "heightOfGeoidAboveWGS84Units" "heightOfGeoidAboveWGS84" s a
  else if key = "trueHeading" then
    statefulUpdate "trueHeading" "heading" "_angle" (.heading none none) s a
  else if key = "magneticVariation" then
    statefulUpdate "magneticVariation" "heading" "variation" (.heading none none) s a
  else if key = "magneticVariationDirection" then
    fixHemisphereSign .variation "heading" s a
  else if key = "speedInKnots" then fixSpeed s a
  else if key = "positionDilutionOfPrecision" then
    statefulUpdate "positionDilutionOfPrecision" "positionError" "pdop"
      (.posError none none none) s a
  else if key = "horizontalDilutionOfPrecision" then
    statefulUpdate "horizontalDilutionOfPrecision" "positionError" "hdop"
      (.posError none none none) s a
  else if key = "verticalDilutionOfPrecision" then
    statefulUpdate "verticalDilutionOfPrecision" "positionError" "vdop"
      (.posError none none none) s a
  else .ok a

/-- Lexicographic (codepoint) order on character lists — Python 2's
byte-string order for the ASCII field names the schema uses. -/
def charsLt : Chars → Chars → Bool
  | [], [] => false
  | [], _ :: _ => true
  | _ :: _, [] => false
  | c :: cs, d :: ds =>
    if c.toNat < d.toNat then true
    else if d.toNat < c.toNat then false
    else charsLt cs ds

/-- Python string comparison, on the underlying character lists. -/
def strLt (a b : String) : Bool := charsLt a.toList b.toList

/-- Insert into a sorted list of strings (stable). -/
def insertStr (x : String) : List String → List String
  | [] => [x]
  | y :: ys => if strLt x y then x :: y :: ys else y :: insertStr x ys

/-- Python `sorted(...)` on distinct strings: insertion sort by the
lexicographic order. -/
def sortKeys : List String → List String
  | [] => []
  | x :: xs => insertStr x (sortKeys xs)

/-- Embeds `_cleanCurrentSentence` (nmea.py lines 781-789): apply the fixer
of every present field, in lexicographic field-name order. -/
def cleanCurrentSentence (s : Sentence) (a : Adapter) : Except PyErr Adapter :=
  (sortKeys s.presentAttributes).foldlM (fun acc k => applyFixer k s acc) a

/-- Embeds `_validateCurrentSentence` (nmea.py lines 771-778): invalid when
fix quality is "0", data mode is "V", or GSA fix type is "1". -/
def validateCurrentSentence (s : Sentence) : Except PyErr Unit :=
  if s.get "fixQuality" = some ['0'] ∨ s.get "dataMode" = some ['V'] ∨
     s.get "fixType" = some ['1'] then
    .error .invalidSentence
  else .ok ()

/-- Set every satellite's `isUsed` flag from the chosen used-PRN set
(`beacon.isUsed = beacon.identifier in usedPRNs`). -/
def markUsed (prnSet : List Int) (sats : List Satellite) : List Satellite :=
  sats.map (fun b => { b with isUsed := some (prnSet.contains b.identifier) })

/-- Embeds `_updateBeaconInformation` (nmea.py lines 801-824).  Note the
source's choice `usedPRNs = self._state.get('_usedPRNs') or
self._sentenceData.get('_usedPRNs')`: the previously accumulated state set
is preferred, and, being a Python `or`, an empty (falsy) state set also
falls through to the sentence's own.  Satellite-set union is modelled as
list append (Python's identity-based `set.update`); the theorems never
exercise the configuration in which the scratch and state entries alias the
same object. -/
def updateBeaconInformation (s : Sentence) (a : Adapter) : Except PyErr Adapter :=
  match dget a.scratch "_partialBeaconInformation" with
  | none => .ok a
  | some v =>
    match v with
    | .beacons newSats =>
      let marked :=
        match pyOr (dget a.state "_usedPRNs") (dget a.scratch "_usedPRNs") with
        | some (.prns prnSet) => markUsed prnSet newSats
        | _ => newSats
      let merged :=
        match dget a.state "_partialBeaconInformation" with
        | some (.beacons old) => marked ++ old
        | _ => marked
      if s.isLastGSV then
        match
          (if ¬ s.isFirstGSV then
            (if dmem a.state "_partialBeaconInformation" then
              Except.ok (ddel a.state "_partialBeaconInformation")
            else Except.error PyErr.keyError)
          else Except.ok a.state : Except PyErr (Dict PyVal))
        with
        | .ok st2 =>
          .ok { state := st2,
                scratch := dset (ddel a.scratch "_partialBeaconInformation")
                  "beaconInformation" (.beacons merged) }
        | .error e => .error e
      else
        .ok { a with
              scratch := dset a.scratch "_partialBeaconInformation" (.beacons merged) }
    | _ => .error .typeError

/-- Embeds `_combineDateAndTime` (nmea.py lines 827-845).  The leading loop
returns unless BOTH `_date` and `_time` are present in the scratch map; each
value is then taken from the scratch map unless falsy (`or`), falling back
to the state map, and `datetime.combine` runs only when both resolve. -/
def combineDateAndTime (a : Adapter) : Except PyErr Adapter :=
  if ¬ dmem a.scratch "_date" then .ok a
  else if ¬ dmem a.scratch "_time" then .ok a
  else
    match pyOr (dget a.scratch "_date") (dget a.state "_date"),
          pyOr (dget a.scratch "_time") (dget a.state "_time") with
    | some (.calDate y mo d), some (.timeOfDay h mi sec) =>
      .ok { a with scratch := dset a.scratch "time" (.dateTime y mo d h mi sec) }
    | none, _ => .ok a
    | _, none => .ok a
    | some _, some _ => .error .typeError

/-- Embeds `_updateState` (nmea.py lines 792-798): beacon aggregation, then
date/time combination, then folding the scratch map into the state map. -/
def updateState (s : Sentence) (a : Adapter) : Except PyErr Adapter := do
  let a1 ← updateBeaconInformation s a
  let a2 ← combineDateAndTime a1
  .ok { a2 with state := dupdate a2.state a2.scratch }

/-- Modelled from the spec: the REQUIRED_CALLBACK_FIELDS table derived from
the positioning receiver interface — one update kind per callback with its
fixed required-field set (spec §4.3 step 4, §6, §8: the heading callback
requires exactly `heading`, the position callback latitude and longitude,
and so on). -/
def requiredCallbackFields : List (String × List String) :=
  [("positionReceived", ["latitude", "longitude"]),
   ("positionErrorReceived", ["positionError"]),
   ("timeReceived", ["time"]),
   ("headingReceived", ["heading"]),
   ("altitudeReceived", ["altitude"]),
   ("speedReceived", ["speed"]),
   ("beaconInformationReceived", ["beaconInformation"])]

/-- The field-collection loop of `_fireSentenceCallbacks`: walk the required
fields, noting whether any is in the scratch map and reading each value from
the state map; a missing state field is a `KeyError` that skips the whole
callback (`none`). -/
def collectFields (scratch state : Dict PyVal) (fields : List String) :
    Option (Dict PyVal × Bool) :=
  fields.foldlM
    (fun (acc : Dict PyVal × Bool) f =>
      match dget state f with
      | some v => some (dset acc.1 f v, acc.2 || dmem scratch f)
      | none => none)
    ([], false)

/-- Embeds `_fireSentenceCallbacks` (nmea.py lines 848-873): a callback
fires iff all its required fields are in the state map and at least one is
in the scratch map; it receives exactly the required fields, read from the
state map.  Returns the invocation log in contract order. -/
def fireSentenceCallbacks (contract : List (String × List String))
    (a : Adapter) : List (String × Dict PyVal) :=
  contract.foldl
    (fun out kind =>
      match collectFields a.scratch a.state kind.2 with
      | some (kwargs, true) => out ++ [(kind.1, kwargs)]
      | _ => out)
    []

/-- Embeds `NMEAAdapter.sentenceReceived` (nmea.py lines 747-768): validate
and clean, catching only `InvalidSentence` (which wipes all state via
`clear()`), then update state and fire callbacks.  Faithful to the source,
the scratch map is NOT emptied at the start of the call: whatever the
previous sentence left there is still present. -/
def sentenceReceived (a : Adapter) (s : Sentence) :
    Except PyErr (Adapter × List (String × Dict PyVal)) := do
  let a1 ←
    (match validateCurrentSentence s with
     | .error .invalidSentence => Except.ok clearAdapter
     | .error e => Except.error e
     | .ok _ =>
       match cleanCurrentSentence s a with
       | .ok a2 => Except.ok a2
       | .error .invalidSentence => Except.ok clearAdapter
       | .error e => Except.error e)
  let a3 ← updateState s a1
  .ok (a3, fireSentenceCallbacks requiredCallbackFields a3)

/-- Embeds the sentence-data construction of `NMEAProtocol.lineReceived`
(nmea.py lines 129-132): starting from `{"type": sentenceType}`, zip the
schema field names against the data tokens — `izip` truncates at the
shorter list — and keep only named, non-empty fields. -/
def buildStep (d : Dict Chars) (kv : Option String × String) : Dict Chars :=
  match kv.1 with
  | some k => if kv.2 ≠ "" then dset d k kv.2.toList else d
  | none => d

def buildSentenceData (typeTag : String) (keys : List (Option String))
    (contents : List String) : Dict Chars :=
  (keys.zip contents).foldl buildStep [("type", typeTag.toList)]

/-- Successful result of an embedded computation, `none` on an exception. -/
def exOk? {α : Type} : Except PyErr α → Option α
  | .ok a => some a
  | .error _ => none

/-- The claim-side description of one GSV slot's contribution: slot `i`
contributes a satellite exactly when both its PRN and its SNR field are
present in the sentence. -/
def gsvSlotSpec (s : Sentence) (i : Nat) : Option Satellite :=
  match s.get ("satellitePRN_" ++ toString i),
        s.get ("signalToNoiseRatio_" ++ toString i) with
  | some p, some n =>
    some { identifier := (natOfDigits p : Int),
           azimuth := s.get ("azimuth_" ++ toString i),
           elevation := s.get ("elevation_" ++ toString i),
           signalToNoiseRatio := some n, isUsed := none }
  | _, _ => none

/-- The combined datetime the amended date/time claim predicts: a
combination happens only when both `_date` and `_time` are present in the
scratch map, and the value used for each is the scratch value unless it is
falsy (a midnight time), in which case the state value is used; `none` when
no combination occurs. -/
def combinedTimeSpec (scr st : Dict PyVal) : Option PyVal :=
  if dmem scr "_date" ∧ dmem scr "_time" then
    match pyOr (dget scr "_date") (dget st "_date"),
          pyOr (dget scr "_time") (dget st "_time") with
    | some (.calDate y mo d), some (.timeOfDay h mi sec) =>
      some (.dateTime y mo d h mi sec)
    | _, _ => none
  else none

/-- The used-PRN set the amended beacon claim predicts the marking step
uses: the previously accumulated set in AdapterState when present and
nonempty; otherwise the sentence's own scratch set (even when empty);
`none` — no marking — when neither source supplies a set. -/
def usedPRNChoiceSpec : Option PyVal → Option PyVal → Option (List Int)
  | some (.prns ps), other =>
    if ps = [] then
      (match other with
       | some (.prns qs) => some qs
       | _ => none)
    else some ps
  | none, some (.prns qs) => some qs
  | _, _ => none

theorem dget_dset_self {α : Type} (d : Dict α) (k : String) (v : α) :
    dget (dset d k v) k = some v := by
  induction d with
  | nil => simp [dset, dget]
  | cons p d ih =>
    obtain ⟨k2, v2⟩ := p
    by_cases h : k2 = k
    · subst h
      simp [dset, dget]
    · simp [dset, dget, h, ih]

theorem dget_dset_ne {α : Type} (d : Dict α) {k1 k : String} (v : α) (h : k1 ≠ k) :
    dget (dset d k1 v) k = dget d k := by
  induction d with
  | nil => simp [dset, dget, h]
  | cons p d ih =>
    obtain ⟨k2, v2⟩ := p
    by_cases h2 : k2 = k1
    · subst h2
      simp [dset, dget, h]
    · simp [dset, dget, h2, ih]

theorem foldl_xor_eq (l : Chars) (n : Nat) :
    l.foldl (fun a x => a ^^^ x.toNat) n = n ^^^ specXor l := by
  induction l generalizing n with
  | nil => simp [specXor]
  | cons c cs ih =>
    simp only [List.foldl_cons, specXor, List.foldr_cons, ih (n ^^^ c.toNat)]
    rw [Nat.xor_assoc]

theorem xorOrds_eq_specXor (l : Chars) : xorOrds l = specXor l := by
  cases l with
  | nil => rfl
  | cons c cs =>
    show cs.foldl (fun a x => a ^^^ x.toNat) c.toNat = specXor (c :: cs)
    rw [foldl_xor_eq]
    rfl

/-- C8 counterexample: on the line `$*01` the claimed condition holds — a
checksum is present (`*` third from last), the declared hex value is 1, and
the XOR over the (empty) set of characters strictly between `$` and `*` is
0, different from 1 — yet the code raises `TypeError` (from `reduce` over an
empty sequence), not the invalid-checksum error. -/
theorem c8_checksum_counterexample :
    validateChecksum "$*01".toList = .error .typeError ∧
    "$*01".toList.get? ("$*01".toList.length - 3) = some '*' ∧
    pyIntHex? ("$*01".toList.drop ("$*01".toList.length - 2)) = some 1 ∧
    (specXor (betweenDollarStar "$*01".toList) : Int) ≠ 1 := by decide

/-- C8 amended: for a line of length at least 3 starting with `$`, the
invalid-checksum error is raised iff an asterisk sits third from last, the
two trailing characters parse under Python's `int(·, 16)` (which tolerates
surrounding whitespace, an optional sign and an optional `0x` prefix around
the case-insensitive hex digits, so the reference may even be negative), at
least one character lies strictly between the leading `$` and the `*`, and
the XOR of those characters' ordinals differs from the parsed reference
value; an empty payload raises `TypeError` instead. -/
theorem c8_checksum_amended (s : Chars) (h3 : 3 ≤ s.length)
    (hdollar : s.get? 0 = some '$') :
    (validateChecksum s = .error .invalidChecksum ↔
      (s.get? (s.length - 3) = some '*' ∧
       ∃ r, pyIntHex? (s.drop (s.length - 2)) = some r ∧
         betweenDollarStar s ≠ [] ∧ (specXor (betweenDollarStar s) : Int) ≠ r)) := by
  unfold validateChecksum betweenDollarStar
  rw [if_neg (by omega)]
  by_cases hstar : s.get? (s.length - 3) = some '*'
  · rw [if_pos hstar]
    cases hhex : pyIntHex? (s.drop (s.length - 2)) with
    | none =>
      show Except.error PyErr.valueError = Except.error PyErr.invalidChecksum ↔ _
      constructor
      · intro h
        cases h
      · rintro ⟨-, r2, hr2, -, -⟩
        cases hr2
    | some r =>
      show (if (s.drop 1).take (s.length - 4) = [] then Except.error PyErr.typeError
            else if (xorOrds ((s.drop 1).take (s.length - 4)) : Int) ≠ r then
              Except.error PyErr.invalidChecksum
            else Except.ok ()) = Except.error PyErr.invalidChecksum ↔ _
      by_cases hsrc : (s.drop 1).take (s.length - 4) = []
      · rw [if_pos hsrc]
        constructor
        · intro h
          cases h
        · rintro ⟨-, r2, hr2, hne, -⟩
          exact absurd hsrc hne
      · rw [if_neg hsrc]
        by_cases hx : (xorOrds ((s.drop 1).take (s.length - 4)) : Int) ≠ r
        · rw [if_pos hx]
          refine ⟨fun _ => ⟨hstar, r, rfl, hsrc, ?_⟩, fun _ => rfl⟩
          rw [← xorOrds_eq_specXor]
          exact hx
        · rw [if_neg hx]
          constructor
          · intro h
            cases h
          · rintro ⟨-, r2, hr2, -, hxor⟩
            injection hr2 with hr3
            subst hr3
            rw [← xorOrds_eq_specXor] at hxor
            exact absurd hxor hx
  · rw [if_neg hstar]
    constructor
    · intro h
      cases h
    · rintro ⟨h1, -⟩
      exact absurd h1 hstar

/-- Closed instance of the amended checksum theorem at the line `$A* 5`,
whose declared checksum carries the interior space that survives the line
strip and that `int(' 5', 16)` accepts: the payload `A` XORs to 0x41 ≠ 5,
so the invalid-checksum error is raised. -/
theorem c8_checksum_amended_witness :
    validateChecksum "$A* 5".toList = .error .invalidChecksum ∧
    (validateChecksum "$A* 5".toList = .error .invalidChecksum ↔
      ("$A* 5".toList.get? ("$A* 5".toList.length - 3) = some '*' ∧
       ∃ r, pyIntHex? ("$A* 5".toList.drop ("$A* 5".toList.length - 2)) = some r ∧
         betweenDollarStar "$A* 5".toList ≠ [] ∧
         (specXor (betweenDollarStar "$A* 5".toList) : Int) ≠ r)) :=
  ⟨(c8_checksum_amended "$A* 5".toList (by decide) (by decide)).mpr
      ⟨by decide, 5, by decide, by decide, by decide⟩,
   c8_checksum_amended "$A* 5".toList (by decide) (by decide)⟩

theorem signFromLetter_error_iff (u : Chars) :
    signFromLetter u = .error .valueError ↔
      ¬ (u.map Char.toUpper = ['N'] ∨ u.map Char.toUpper = ['E'] ∨
         u.map Char.toUpper = ['S'] ∨ u.map Char.toUpper = ['W']) := by
  unfold signFromLetter
  by_cases h1 : u.map Char.toUpper = ['N'] ∨ u.map Char.toUpper = ['E']
  · simp only [if_pos h1]
    constructor
    · intro h
      cases h
    · intro h
      exact absurd (Or.elim h1 Or.inl (fun h2 => Or.inr (Or.inl h2))) h
  · rw [if_neg h1]
    by_cases h2 : u.map Char.toUpper = ['S'] ∨ u.map Char.toUpper = ['W']
    · rw [if_pos h2]
      constructor
      · intro h
        cases h
      · intro h
        refine absurd ?_ h
        rcases h2 with h2 | h2
        · exact Or.inr (Or.inr (Or.inl h2))
        · exact Or.inr (Or.inr (Or.inr h2))
    · rw [if_neg h2]
      constructor
      · intro _
        tauto
      · intro _
        rfl

/-- C10: hemisphere and variation-direction letters are matched through
`upper()`, so the lowercase letters give the same sign as their uppercase
counterparts (both through the sign table and through the hemisphere-field
lookup), and the bad-hemisphere `ValueError` occurs exactly for strings
whose uppercase form is none of `N`, `E`, `S`, `W`. -/
theorem c10_hemisphere_case_insensitive :
    (signFromLetter ['n'] = .ok 1 ∧ signFromLetter ['N'] = .ok 1 ∧
     signFromLetter ['e'] = .ok 1 ∧ signFromLetter ['E'] = .ok 1 ∧
     signFromLetter ['s'] = .ok (-1) ∧ signFromLetter ['S'] = .ok (-1) ∧
     signFromLetter ['w'] = .ok (-1) ∧ signFromLetter ['W'] = .ok (-1)) ∧
    (getHemisphereSign .latitude (mkSentence [("latitudeHemisphere", "s")]) = .ok (-1) ∧
     getHemisphereSign .variation
       (mkSentence [("magneticVariationDirection", "w")]) = .ok (-1)) ∧
    (∀ u : Chars, signFromLetter u = .error .valueError ↔
      ¬ (u.map Char.toUpper = ['N'] ∨ u.map Char.toUpper = ['E'] ∨
         u.map Char.toUpper = ['S'] ∨ u.map Char.toUpper = ['W'])) := by
  exact ⟨by decide, by decide, signFromLetter_error_iff⟩

/-- C5: a sentence reporting an invalid fix (GGA fix quality `0`, data mode
`V`, or GSA fix type `1`) makes `sentenceReceived` wipe the whole adapter —
state (including any in-progress partial GSV aggregation) and scratch map
both end empty — derive no fields, fire no callbacks, and return without an
exception, from any prior adapter state. -/
theorem c5_invalid_fix_reset (a : Adapter) (s : Sentence)
    (h : s.get "fixQuality" = some ['0'] ∨ s.get "dataMode" = some ['V'] ∨
         s.get "fixType" = some ['1']) :
    sentenceReceived a s = .ok (clearAdapter, []) := by
  have hv : validateCurrentSentence s = .error .invalidSentence := by
    unfold validateCurrentSentence
    rw [if_pos h]
  unfold sentenceReceived
  rw [hv]
  rfl

/-- Closed instance of the invalid-fix theorem: a GPGGA with fix quality 0,
fed to an adapter holding a partial GSV aggregation and a heading. -/
theorem c5_invalid_fix_reset_witness :
    sentenceReceived
      { state := [("_partialBeaconInformation",
                    PyVal.beacons [⟨9, none, none, some ['1'], none⟩]),
                  ("heading", PyVal.heading (some 1) none)],
        scratch := [("heading", PyVal.heading (some 1) none)] }
      (mkSentence [("type", "GPGGA"), ("fixQuality", "0")]) = .ok (clearAdapter, []) :=
  c5_invalid_fix_reset _ _ (Or.inl (by decide))

/-- C3 counterexample: a fresh adapter fed a valid GPRMC carrying only
`trueHeading` fires the heading callback right away — the claim says the
callback must not fire until the second sentence arrives. -/
theorem c3_heading_counterexample :
    (exOk? (sentenceReceived clearAdapter
      (mkSentence [("type", "GPRMC"), ("trueHeading", "90.5")]))).map (fun r => r.2) =
    some [("headingReceived", [("heading", PyVal.heading (some (181/2)) none)])] := by
  decide

/-- C3 amended: a GPRMC with only `trueHeading` followed by a GPRMC with
only `magneticVariation` accumulates one Heading with both the course and
the variation set, but the heading callback fires after each of the two
sentences — after the first carrying only the course, after the second
carrying both. -/
theorem c3_heading_amended :
    (exOk? (do
      let r1 ← sentenceReceived clearAdapter
        (mkSentence [("type", "GPRMC"), ("trueHeading", "90.5")])
      let r2 ← sentenceReceived r1.1
        (mkSentence [("type", "GPRMC"), ("magneticVariation", "5.5")])
      Except.ok (r1.2, r2.2, dget r2.1.state "heading"))) =
    some ([("headingReceived", [("heading", PyVal.heading (some (181/2)) none)])],
          [("headingReceived", [("heading", PyVal.heading (some (181/2)) (some (11/2)))])],
          some (PyVal.heading (some (181/2)) (some (11/2)))) := by
  decide

/-- C4: the code violates the freshness gate.  A GPHDT supplies only
`trueHeading` and fires the heading callback; the next sentence, a GPGGA
supplying only `altitude` — a field outside the heading callback's required
set, with `heading` untouched in state — re-fires the heading callback
anyway, because `_sentenceData` is never emptied between sentences (only
`clear()` on an invalid sentence empties it), contradicting the source's own
docstrings for `_fireSentenceCallbacks` and `_sentenceData`. -/
theorem c4_freshness_code_bug :
    (exOk? (do
      let r1 ← sentenceReceived clearAdapter
        (mkSentence [("type", "GPHDT"), ("trueHeading", "123.4")])
      let r2 ← sentenceReceived r1.1
        (mkSentence [("type", "GPGGA"), ("altitude", "5.0")])
      Except.ok (r1.2.map Prod.fst, r2.2.map Prod.fst, dget r2.1.scratch "altitude"))) =
    some (["headingReceived"], ["headingReceived", "altitudeReceived"],
          some (PyVal.altitude 5)) := by
  decide

/-- C1 counterexample: a GPRMC carrying a datestamp and the midnight
timestamp `000000` leaves both a date (`_date`) and a time (`_time`) in the
scratch map after decode-and-fix, yet no combined datetime is produced — no
`time` key appears in scratch or state and no time callback fires — because
the midnight `datetime.time` is falsy in Python 2, so the
scratch-or-state lookup falls through to the (empty) state and the
combination is skipped. -/
theorem c1_combine_counterexample :
    (exOk? (sentenceReceived clearAdapter
      (mkSentence [("type", "GPRMC"), ("datestamp", "100470"),
                   ("timestamp", "000000")]))).map
      (fun r => (dget r.1.scratch "_date", dget r.1.scratch "_time",
                 dget r.1.scratch "time", dget r.1.state "time", r.2)) =
    some (some (PyVal.calDate 2070 4 10), some (PyVal.timeOfDay 0 0 0),
          none, none, []) := by
  decide

/-- C2 counterexample: a GSV sentence whose scratch map supplies its own
used-PRN set `{5}` while AdapterState carries the previously accumulated set
`{7}`.  The claim says the sentence's own set is preferred, which would mark
the PRN-5 satellite used; the code prefers the state set (`state.get or
scratch.get`), so the satellite is marked NOT used. -/
theorem c2_usedprns_counterexample :
    (exOk? (updateBeaconInformation
      (mkSentence [("type", "GPGSV"), ("numberOfGSVSentences", "1"),
                   ("GSVSentenceIndex", "1")])
      { state := [("_usedPRNs", PyVal.prns [7])],
        scratch := [("_partialBeaconInformation",
                      PyVal.beacons [⟨5, none, none, some ['3', '0'], none⟩]),
                    ("_usedPRNs", PyVal.prns [5])] })).map
      (fun r => dget r.scratch "beaconInformation") =
    some (some (PyVal.beacons [⟨5, none, none, some ['3', '0'], some false⟩])) := by
  decide

/-- C2 amended: when a partial beacon set is present in the scratch map (and
no partial set is accumulated in state, and the sentence is not the last of
its GSV group, so only the marking step acts), the used flags are set from
`usedPRNChoiceSpec`: the previously accumulated AdapterState set when
present and nonempty, else the sentence's own scratch set, and no marking
when neither key is present. -/
theorem c2_usedprns_amended (st scr : Dict PyVal) (sats : List Satellite)
    (s : Sentence)
    (hp : dget scr "_partialBeaconInformation" = some (.beacons sats))
    (hold : dget st "_partialBeaconInformation" = none)
    (hlast : s.isLastGSV = false)
    (hstTy : ∀ v, dget st "_usedPRNs" = some v → ∃ ps, v = PyVal.prns ps)
    (hscrTy : ∀ v, dget scr "_usedPRNs" = some v → ∃ qs, v = PyVal.prns qs) :
    updateBeaconInformation s { state := st, scratch := scr } =
      .ok { state := st,
            scratch := dset scr "_partialBeaconInformation" (.beacons
              (match usedPRNChoiceSpec (dget st "_usedPRNs") (dget scr "_usedPRNs") with
               | some ps => markUsed ps sats
               | none => sats)) } := by
  unfold updateBeaconInformation
  rw [hp]
  show (if s.isLastGSV = true then _ else _) = _
  rw [if_neg (by simp [hlast])]
  rw [hold]
  cases hst2 : dget st "_usedPRNs" with
  | none =>
    cases hscr2 : dget scr "_usedPRNs" with
    | none => rfl
    | some v =>
      obtain ⟨qs, rfl⟩ := hscrTy v hscr2
      rfl
  | some v =>
    obtain ⟨ps, rfl⟩ := hstTy v hst2
    cases ps with
    | nil =>
      cases hscr2 : dget scr "_usedPRNs" with
      | none => rfl
      | some w =>
        obtain ⟨qs, rfl⟩ := hscrTy w hscr2
        rfl
    | cons p ps2 => rfl

/-- Closed instance of the amended used-PRN theorem: state set `{7}` wins
over the sentence's own `{5}`. -/
theorem c2_usedprns_amended_witness :
    updateBeaconInformation
      (mkSentence [("type", "GPGSV"), ("numberOfGSVSentences", "2"),
                   ("GSVSentenceIndex", "1")])
      { state := [("_usedPRNs", PyVal.prns [7])],
        scratch := [("_partialBeaconInformation",
                      PyVal.beacons [⟨5, none, none, some ['3', '0'], none⟩]),
                    ("_usedPRNs", PyVal.prns [5])] } =
      .ok { state := [("_usedPRNs", PyVal.prns [7])],
            scratch := dset
              [("_partialBeaconInformation",
                 PyVal.beacons [⟨5, none, none, some ['3', '0'], none⟩]),
               ("_usedPRNs", PyVal.prns [5])] "_partialBeaconInformation" (.beacons
              (match usedPRNChoiceSpec
                  (dget [("_usedPRNs", PyVal.prns [7])] "_usedPRNs")
                  (dget [("_partialBeaconInformation",
                           PyVal.beacons [⟨5, none, none, some ['3', '0'], none⟩]),
                         ("_usedPRNs", PyVal.prns [5])] "_usedPRNs") with
               | some ps => markUsed ps [⟨5, none, none, some ['3', '0'], none⟩]
               | none => [⟨5, none, none, some ['3', '0'], none⟩])) } :=
  c2_usedprns_amended _ _ _ _ (by decide) (by decide) (by decide)
    (fun v hv => ⟨[7], by injection hv with h; exact h.symm⟩)
    (fun v hv => ⟨[5], by injection hv with h; exact h.symm⟩)

/-- C1 amended: a combination is attempted only when both `_date` and
`_time` are present in the scratch map; each value is taken from the scratch
map unless falsy (a midnight time), falling back to the state map; the
combined datetime predicted by `combinedTimeSpec` (and only it) is stored
under the `time` scratch key, every other scratch key and the state map
being left untouched; when `combinedTimeSpec` is `none` — either key absent
from scratch, or a freshly decoded midnight time with no stored time — the
adapter is returned unchanged. -/
theorem c1_combine_amended (a : Adapter)
    (hsd : ∀ v, dget a.scratch "_date" = some v → ∃ y mo d, v = PyVal.calDate y mo d)
    (hst : ∀ v, dget a.scratch "_time" = some v →
      ∃ h mi sec, v = PyVal.timeOfDay h mi sec)
    (htt : ∀ v, dget a.state "_time" = some v →
      ∃ h mi sec, v = PyVal.timeOfDay h mi sec) :
    ∃ a2, combineDateAndTime a = .ok a2 ∧ a2.state = a.state ∧
      (match combinedTimeSpec a.scratch a.state with
       | some dt =>
         dget a2.scratch "time" = some dt ∧
         ∀ k, k ≠ "time" → dget a2.scratch k = dget a.scratch k
       | none => a2 = a) := by
  by_cases hd : dmem a.scratch "_date" = true
  · by_cases ht : dmem a.scratch "_time" = true
    · have hd2 : (dget a.scratch "_date").isSome = true := hd
      obtain ⟨vd, hvd⟩ := Option.isSome_iff_exists.mp hd2
      obtain ⟨y, mo, d, rfl⟩ := hsd vd hvd
      have ht2 : (dget a.scratch "_time").isSome = true := ht
      obtain ⟨vt, hvt⟩ := Option.isSome_iff_exists.mp ht2
      obtain ⟨h, mi, sec, rfl⟩ := hst vt hvt
      have hc0 : combineDateAndTime a =
          (match pyOr (dget a.scratch "_date") (dget a.state "_date"),
                 pyOr (dget a.scratch "_time") (dget a.state "_time") with
           | some (.calDate y mo d), some (.timeOfDay h mi sec) =>
             .ok { a with scratch := dset a.scratch "time" (.dateTime y mo d h mi sec) }
           | none, _ => .ok a
           | _, none => .ok a
           | some _, some _ => .error .typeError) := by
        unfold combineDateAndTime
        rw [if_neg (by simp [hd]), if_neg (by simp [ht])]
      have hs0 : combinedTimeSpec a.scratch a.state =
          (match pyOr (dget a.scratch "_date") (dget a.state "_date"),
                 pyOr (dget a.scratch "_time") (dget a.state "_time") with
           | some (.calDate y mo d), some (.timeOfDay h mi sec) =>
             some (PyVal.dateTime y mo d h mi sec)
           | _, _ => none) := by
        unfold combinedTimeSpec
        rw [if_pos (by simp [hd, ht])]
      rw [hc0, hs0, hvd, hvt]
      have hpd : pyOr (some (PyVal.calDate y mo d)) (dget a.state "_date") =
          some (PyVal.calDate y mo d) := rfl
      rw [hpd]
      by_cases htr : PyVal.truthy (.timeOfDay h mi sec) = true
      · have hpt : pyOr (some (PyVal.timeOfDay h mi sec)) (dget a.state "_time") =
            some (PyVal.timeOfDay h mi sec) := by
          simp [pyOr, htr]
        rw [hpt]
        exact ⟨_, rfl, rfl, dget_dset_self _ _ _,
               fun k hk => dget_dset_ne _ _ (Ne.symm hk)⟩
      · have hpt : pyOr (some (PyVal.timeOfDay h mi sec)) (dget a.state "_time") =
            dget a.state "_time" := by
          simp [pyOr, htr]
        rw [hpt]
        cases hts : dget a.state "_time" with
        | none => exact ⟨a, rfl, rfl, rfl⟩
        | some w =>
          obtain ⟨h2, mi2, sec2, rfl⟩ := htt w hts
          exact ⟨_, rfl, rfl, dget_dset_self _ _ _,
                 fun k hk => dget_dset_ne _ _ (Ne.symm hk)⟩
    · have hc : combineDateAndTime a = .ok a := by
        unfold combineDateAndTime
        rw [if_neg (by simp [hd]), if_pos (by simp [ht])]
      have hs : combinedTimeSpec a.scratch a.state = none := by
        unfold combinedTimeSpec
        rw [if_neg (by simp [ht])]
      rw [hc, hs]
      exact ⟨a, rfl, rfl, rfl⟩
  · have hc : combineDateAndTime a = .ok a := by
      unfold combineDateAndTime
      rw [if_pos (by simp [hd])]
    have hs : combinedTimeSpec a.scratch a.state = none := by
      unfold combinedTimeSpec
      rw [if_neg (by simp [hd])]
    rw [hc, hs]
    exact ⟨a, rfl, rfl, rfl⟩

/-- Closed instance of the amended combination theorem: a scratch map
carrying a date and the (falsy) midnight time, over an empty state — no
combination occurs and the adapter is unchanged. -/
theorem c1_combine_amended_witness :
    ∃ a2,
      combineDateAndTime
        { state := [],
          scratch := [("_date", PyVal.calDate 2070 4 10),
                      ("_time", PyVal.timeOfDay 0 0 0)] } = .ok a2 ∧
      a2.state = ([] : Dict PyVal) ∧
      (match combinedTimeSpec
          [("_date", PyVal.calDate 2070 4 10), ("_time", PyVal.timeOfDay 0 0 0)]
          ([] : Dict PyVal) with
       | some dt =>
         dget a2.scratch "time" = some dt ∧
         ∀ k, k ≠ "time" →
           dget a2.scratch k =
             dget [("_date", PyVal.calDate 2070 4 10),
                   ("_time", PyVal.timeOfDay 0 0 0)] k
       | none =>
         a2 = { state := [],
                scratch := [("_date", PyVal.calDate 2070 4 10),
                            ("_time", PyVal.timeOfDay 0 0 0)] }) :=
  c1_combine_amended _
    (fun v hv => ⟨2070, 4, 10, by injection hv with h2; exact h2.symm⟩)
    (fun v hv => ⟨0, 0, 0, by injection hv with h2; exact h2.symm⟩)
    (fun v hv => by cases hv)

theorem except_bind_ok {α β : Type} (x : α) (f : α → Except PyErr β) :
    (Except.ok x >>= f) = f x := rfl

theorem except_map_ok {α β : Type} (f : α → β) (x : α) :
    (Except.ok x : Except PyErr α).map f = .ok (f x) := rfl

theorem pyIntChars?_digits (l : Chars) (h : allDigits l = true) :
    pyIntChars? l = some (natOfDigits l) := by
  unfold pyIntChars?
  rw [if_pos h]
  rfl

theorem gsvSlot_eq (s : Sentence) (i : Nat)
    (hdig : ∀ p, s.get ("satellitePRN_" ++ toString i) = some p → allDigits p = true) :
    gsvSlot s i = .ok (gsvSlotSpec s i) := by
  unfold gsvSlot gsvSlotSpec
  cases hp : s.get ("satellitePRN_" ++ toString i) with
  | none =>
    cases hn : s.get ("signalToNoiseRatio_" ++ toString i) with
    | none => rfl
    | some n => rfl
  | some p =>
    cases hn : s.get ("signalToNoiseRatio_" ++ toString i) with
    | none => rfl
    | some n =>
      simp [pyIntChars?_digits p (hdig p hp)]

theorem filterMap_cons_toList {α β : Type} (f : α → Option β) (a : α) (l : List α) :
    (a :: l).filterMap f = (f a).toList ++ l.filterMap f := by
  cases h : f a <;> simp [List.filterMap_cons, h]

/-- C6: for every GSV sentence (with numeric PRN fields), slot `i`
contributes a satellite to the fresh partial beacon set exactly when both
its PRN field and its SNR field are present — the slot list equals the
filter-map of the per-slot contributions over slots 0..3, so a missing slot
is skipped individually and never prevents later slots from contributing. -/
theorem c6_gsv_slot_skip (s : Sentence)
    (hdig : ∀ i p, i < 4 → s.get ("satellitePRN_" ++ toString i) = some p →
      allDigits p = true) :
    fixGSVsats s = .ok ((List.range 4).filterMap (gsvSlotSpec s)) ∧
    (∀ i, (gsvSlotSpec s i).isSome =
      ((s.get ("satellitePRN_" ++ toString i)).isSome &&
       (s.get ("signalToNoiseRatio_" ++ toString i)).isSome)) := by
  have h0 := gsvSlot_eq s 0 (fun p hp => hdig 0 p (by omega) hp)
  have h1 := gsvSlot_eq s 1 (fun p hp => hdig 1 p (by omega) hp)
  have h2 := gsvSlot_eq s 2 (fun p hp => hdig 2 p (by omega) hp)
  have h3 := gsvSlot_eq s 3 (fun p hp => hdig 3 p (by omega) hp)
  constructor
  · unfold fixGSVsats
    rw [show List.range 4 = [0, 1, 2, 3] from rfl]
    simp only [List.foldlM_cons, List.foldlM_nil, h0, h1, h2, h3, except_map_ok,
      except_bind_ok]
    rw [filterMap_cons_toList, filterMap_cons_toList, filterMap_cons_toList,
      filterMap_cons_toList]
    simp
    rfl
  · intro i
    unfold gsvSlotSpec
    cases hp : s.get ("satellitePRN_" ++ toString i) with
    | none => rfl
    | some p =>
      cases hn : s.get ("signalToNoiseRatio_" ++ toString i) with
      | none => rfl
      | some n => rfl

theorem buildStep_fold_not_mem (l : List (Option String × String)) (d : Dict Chars)
    (k : String) (h : ∀ kv ∈ l, kv.1 ≠ some k) :
    dget (l.foldl buildStep d) k = dget d k := by
  induction l generalizing d with
  | nil => rfl
  | cons kv rest ih =>
    have hkv : kv.1 ≠ some k := h kv (List.mem_cons_self _ _)
    have hrest : ∀ kv2 ∈ rest, kv2.1 ≠ some k :=
      fun kv2 hm => h kv2 (List.mem_cons_of_mem _ hm)
    rw [List.foldl_cons]
    cases hk1 : kv.1 with
    | none =>
      have hstep : buildStep d kv = d := by simp [buildStep, hk1]
      rw [hstep, ih _ hrest]
    | some k1 =>
      have hne : k1 ≠ k := by
        intro he
        exact hkv (by rw [hk1, he])
      by_cases hv : kv.2 ≠ ""
      · have hstep : buildStep d kv = dset d k1 kv.2.toList := by
          simp [buildStep, hk1, hv]
        rw [hstep, ih _ hrest, dget_dset_ne _ _ hne]
      · have hstep : buildStep d kv = d := by simp [buildStep, hk1, hv]
        rw [hstep, ih _ hrest]

theorem buildStep_fold_find (l : List (Option String × String)) (d : Dict Chars)
    (k : String) (hnd : (l.filterMap (·.1)).Nodup) :
    dget (l.foldl buildStep d) k =
      (match l.find? (fun kv => kv.1 == some k) with
       | some kv => if kv.2 ≠ "" then some kv.2.toList else dget d k
       | none => dget d k) := by
  induction l generalizing d with
  | nil => rfl
  | cons kv rest ih =>
    rw [List.foldl_cons]
    cases hk1 : kv.1 with
    | none =>
      have hstep : buildStep d kv = d := by simp [buildStep, hk1]
      have hnd2 : (rest.filterMap (·.1)).Nodup := by
        rw [List.filterMap_cons, hk1] at hnd
        exact hnd
      have hfind : (kv :: rest).find? (fun kv2 => kv2.1 == some k) =
          rest.find? (fun kv2 => kv2.1 == some k) := by
        rw [List.find?_cons]
        have : (kv.1 == some k) = false := by rw [hk1]; rfl
        rw [this]
      rw [hstep, hfind, ih _ hnd2]
    | some k1 =>
      have hnd3 : (k1 :: rest.filterMap (·.1)).Nodup := by
        rw [List.filterMap_cons, hk1] at hnd
        exact hnd
      have hnotin : k1 ∉ rest.filterMap (·.1) := (List.nodup_cons.mp hnd3).1
      have hnd2 : (rest.filterMap (·.1)).Nodup := (List.nodup_cons.mp hnd3).2
      by_cases hkk : k1 = k
      · subst hkk
        have hfind : (kv :: rest).find? (fun kv2 => kv2.1 == some k1) = some kv := by
          rw [List.find?_cons]
          have : (kv.1 == some k1) = true := by rw [hk1]; simp
          rw [this]
        rw [hfind]
        have hrest : ∀ kv2 ∈ rest, kv2.1 ≠ some k1 := by
          intro kv2 hm he
          exact hnotin (List.mem_filterMap.mpr ⟨kv2, hm, he⟩)
        by_cases hv : kv.2 ≠ ""
        · have hstep : buildStep d kv = dset d k1 kv.2.toList := by
            simp [buildStep, hk1, hv]
          rw [hstep, buildStep_fold_not_mem _ _ _ hrest, dget_dset_self]
          simp [hv]
        · have hstep : buildStep d kv = d := by simp [buildStep, hk1, hv]
          rw [hstep, buildStep_fold_not_mem _ _ _ hrest]
          simp [hv]
      · have hfind : (kv :: rest).find? (fun kv2 => kv2.1 == some k) =
            rest.find? (fun kv2 => kv2.1 == some k) := by
          rw [List.find?_cons]
          have : (kv.1 == some k) = false := by
            rw [hk1]
            simp [hkk]
          rw [this]
        rw [hfind]
        by_cases hv : kv.2 ≠ ""
        · have hstep : buildStep d kv = dset d k1 kv.2.toList := by
            simp [buildStep, hk1, hv]
          rw [hstep, ih _ hnd2, dget_dset_ne _ _ hkk]
        · have hstep : buildStep d kv = d := by simp [buildStep, hk1, hv]
          rw [hstep, ih _ hnd2]

theorem zip_filterMap_fst_sublist (l1 : List (Option String)) (l2 : List String) :
    ((l1.zip l2).filterMap (·.1)).Sublist (l1.filterMap id) := by
  induction l1 generalizing l2 with
  | nil => simp
  | cons a l1 ih =>
    cases l2 with
    | nil => simp
    | cons b l2 =>
      rw [List.zip_cons_cons, List.filterMap_cons, List.filterMap_cons]
      cases a with
      | none => exact ih l2
      | some x => exact (ih l2).cons₂ x

theorem zip_take_len_right {α β : Type} (l1 : List α) (l2 : List β) :
    l1.zip l2 = l1.zip (l2.take l1.length) := by
  induction l1 generalizing l2 with
  | nil => simp
  | cons a l1 ih =>
    cases l2 with
    | nil => simp
    | cons b l2 =>
      rw [List.length_cons, List.take_succ_cons, List.zip_cons_cons,
        List.zip_cons_cons, ← ih l2]

theorem zip_take_len_left {α β : Type} (l1 : List α) (l2 : List β) :
    l1.zip l2 = (l1.take l2.length).zip l2 := by
  induction l1 generalizing l2 with
  | nil => simp
  | cons a l1 ih =>
    cases l2 with
    | nil => simp
    | cons b l2 =>
      rw [List.length_cons, List.take_succ_cons, List.zip_cons_cons,
        List.zip_cons_cons, ← ih l2]

/-- C9: decoding tolerates a token count different from the schema length.
The field map pairs schema names with tokens positionally up to the shorter
list: looking any non-`type` schema field up yields the positionally paired
non-empty token if the pair exists, and nothing otherwise; the map is
unchanged when the excess tokens beyond the schema are discarded, and
unchanged when the schema names beyond the available tokens are discarded.
No failure is possible — `buildSentenceData` is total. -/
theorem c9_zip_truncation (typeTag : String) (keys : List (Option String))
    (contents : List String) (k : String)
    (hnd : (keys.filterMap id).Nodup) (hk : k ≠ "type") :
    dget (buildSentenceData typeTag keys contents) k =
      (match (keys.zip contents).find? (fun kv => kv.1 == some k) with
       | some kv => if kv.2 ≠ "" then some kv.2.toList else none
       | none => none) ∧
    buildSentenceData typeTag keys contents =
      buildSentenceData typeTag keys (contents.take keys.length) ∧
    buildSentenceData typeTag keys contents =
      buildSentenceData typeTag (keys.take contents.length) contents := by
  refine ⟨?_, ?_, ?_⟩
  · have hnd2 : ((keys.zip contents).filterMap (·.1)).Nodup :=
      (zip_filterMap_fst_sublist keys contents).nodup hnd
    have hbase : dget [("type", typeTag.toList)] k = none := by
      simp [dget, Ne.symm hk]
    unfold buildSentenceData
    rw [buildStep_fold_find _ _ _ hnd2, hbase]
  · unfold buildSentenceData
    rw [← zip_take_len_right]
  · unfold buildSentenceData
    rw [← zip_take_len_left]

/-- Closed instance of the truncation theorem: a three-slot schema against
four tokens (one of them empty) — the paired fields appear, the empty and
the excess token do not, and both truncations leave the map unchanged. -/
theorem c9_zip_truncation_witness :
    dget (buildSentenceData "GPXXX" [some "alpha", some "beta", some "gamma"]
        ["1", "", "3", "4"]) "beta" =
      (match (([some "alpha", some "beta", some "gamma"] :
            List (Option String)).zip ["1", "", "3", "4"]).find?
          (fun kv => kv.1 == some "beta") with
       | some kv => if kv.2 ≠ "" then some kv.2.toList else none
       | none => none) ∧
    buildSentenceData "GPXXX" [some "alpha", some "beta", some "gamma"]
        ["1", "", "3", "4"] =
      buildSentenceData "GPXXX" [some "alpha", some "beta", some "gamma"]
        (["1", "", "3", "4"].take
          ([some "alpha", some "beta", some "gamma"] : List (Option String)).length) ∧
    buildSentenceData "GPXXX" [some "alpha", some "beta", some "gamma"]
        ["1", "", "3", "4"] =
      buildSentenceData "GPXXX"
        (([some "alpha", some "beta", some "gamma"] :
           List (Option String)).take (["1", "", "3", "4"] : List String).length)
        ["1", "", "3", "4"] :=
  c9_zip_truncation "GPXXX" _ _ "beta" (by decide) (by decide)

/-- Closed instance of the GSV slot theorem: slots 0 and 2 complete, slot 1
missing its SNR, slot 3 absent — exactly the PRN-12 and PRN-15 satellites
contribute, in slot order. -/
theorem c6_gsv_slot_skip_witness :
    fixGSVsats (mkSentence
      [("type", "GPGSV"), ("numberOfGSVSentences", "1"), ("GSVSentenceIndex", "1"),
       ("satellitePRN_0", "12"), ("elevation_0", "40"), ("azimuth_0", "15"),
       ("signalToNoiseRatio_0", "30"),
       ("satellitePRN_1", "14"), ("elevation_1", "50"),
       ("satellitePRN_2", "15"), ("signalToNoiseRatio_2", "20")]) =
    .ok [{ identifier := 12, azimuth := some ['1', '5'], elevation := some ['4', '0'],
           signalToNoiseRatio := some ['3', '0'], isUsed := none },
         { identifier := 15, azimuth := none, elevation := none,
           signalToNoiseRatio := some ['2', '0'], isUsed := none }] :=
  ((c6_gsv_slot_skip _
      (by
        intro i p hi hp
        interval_cases i
        · injection hp with h4
          subst h4
          decide
        · injection hp with h4
          subst h4
          decide
        · injection hp with h4
          subst h4
          decide
        · exact Option.noConfusion hp)).1).trans (by decide)

theorem splitChar_not_mem (sep : Char) (l : Chars) (h : sep ∉ l) :
    splitChar sep l = [l] := by
  induction l with
  | nil => rfl
  | cons c cs ih =>
    have hc : ¬ c = sep := fun he => h (he ▸ List.mem_cons_self _ _)
    have hcs : sep ∉ cs := fun hm => h (List.mem_cons_of_mem _ hm)
    show (if c = sep then [] :: splitChar sep cs
          else splitCharCons c (splitChar sep cs)) = [c :: cs]
    rw [if_neg hc, ih hcs]
    rfl

theorem splitChar_append (sep : Char) (l1 l2 : Chars) (h : sep ∉ l1) :
    splitChar sep (l1 ++ sep :: l2) = l1 :: splitChar sep l2 := by
  induction l1 with
  | nil =>
    show (if sep = sep then [] :: splitChar sep l2
          else splitCharCons sep (splitChar sep l2)) = [] :: splitChar sep l2
    rw [if_pos rfl]
  | cons c cs ih =>
    have hc : ¬ c = sep := fun he => h (he ▸ List.mem_cons_self _ _)
    have hcs : sep ∉ cs := fun hm => h (List.mem_cons_of_mem _ hm)
    rw [List.cons_append]
    show (if c = sep then [] :: splitChar sep (cs ++ sep :: l2)
          else splitCharCons c (splitChar sep (cs ++ sep :: l2))) =
      (c :: cs) :: splitChar sep l2
    rw [if_neg hc, ih hcs]
    rfl

theorem all_digits_take (l : Chars) (n : Nat) (h : l.all Char.isDigit = true) :
    (l.take n).all Char.isDigit = true := by
  rw [List.all_eq_true] at *
  exact fun c hc => h c (List.take_subset _ _ hc)

theorem all_digits_drop (l : Chars) (n : Nat) (h : l.all Char.isDigit = true) :
    (l.drop n).all Char.isDigit = true := by
  rw [List.all_eq_true] at *
  exact fun c hc => h c (List.drop_subset _ _ hc)

theorem dot_not_mem_digits (l : Chars) (h : l.all Char.isDigit = true) : '.' ∉ l :=
  fun hm => absurd ((List.all_eq_true.mp h) '.' hm) (by decide)

theorem parseCoordinate_eq (L R : Chars) (hL : L.all Char.isDigit = true)
    (hR : R.all Char.isDigit = true) (hlen : 3 ≤ L.length) :
    parseCoordinate (L ++ '.' :: R) = .ok
      ((natOfDigits (L.take (L.length - 2)) : ℚ) +
        ((natOfDigits (L.drop (L.length - 2)) : ℚ) +
          (natOfDigits R : ℚ) / (10 : ℚ) ^ R.length) / 60) := by
  have hsplit : splitChar '.' (L ++ '.' :: R) = [L, R] := by
    rw [splitChar_append _ _ _ (dot_not_mem_digits L hL),
      splitChar_not_mem _ _ (dot_not_mem_digits R hR)]
  have htake_ne : L.take (L.length - 2) ≠ [] := by
    intro he
    have : (L.take (L.length - 2)).length = 0 := by rw [he]; rfl
    rw [List.length_take] at this
    omega
  have hint : pyIntChars? (L.take (L.length - 2)) =
      some ((natOfDigits (L.take (L.length - 2)) : Int)) :=
    pyIntChars?_digits _ (by
      unfold allDigits
      rw [Bool.and_eq_true]
      exact ⟨decide_eq_true htake_ne, all_digits_take L _ hL⟩)
  have hdrop_ne : L.drop (L.length - 2) ≠ [] := by
    intro he
    have : (L.drop (L.length - 2)).length = 0 := by rw [he]; rfl
    rw [List.length_drop] at this
    omega
  have hrat : pyRatParts? (L.drop (L.length - 2)) R =
      some ((natOfDigits (L.drop (L.length - 2)) : ℚ) +
        (natOfDigits R : ℚ) / (10 : ℚ) ^ R.length) := by
    unfold pyRatParts?
    rw [if_pos]
    rw [Bool.and_eq_true, Bool.and_eq_true]
    exact ⟨⟨all_digits_drop L _ hL, hR⟩, decide_eq_true (Or.inl hdrop_ne)⟩
  unfold parseCoordinate
  rw [hsplit]
  show (match pyIntChars? (L.take (L.length - 2)) with
        | none => Except.error PyErr.valueError
        | some degrees =>
          match pyRatParts? (L.drop (L.length - 2)) R with
          | none => Except.error PyErr.valueError
          | some minutes => Except.ok ((degrees : ℚ) + minutes / 60)) = _
  rw [hint, hrat]
  show Except.ok (((natOfDigits (L.take (L.length - 2)) : Int) : ℚ) + _ / 60) = _
  norm_num

/-- C7: for a present coordinate field `L.R` (digits, at least three integer
digits), (i) the decoded magnitude is the integer formed by all digits
before the last two integer digits plus the last two integer digits with
the fractional part, read as minutes, divided by 60; (ii) the hemisphere
step maps `N`/`E` to `+1` and `S`/`W` to `-1` and raises on anything else;
(iii) because present fields are fixed in lexicographic field-name order,
cleaning a sentence carrying both `latitudeFloat` and `latitudeHemisphere`
writes the magnitude first and then applies the sign to it — the scratch map
ends with the signed coordinate and no error occurs. -/
theorem c7_coordinate_two_phase (L R : Chars) (hc : Char) (sg : Int)
    (hL : L.all Char.isDigit = true) (hR : R.all Char.isDigit = true)
    (hlen : 3 ≤ L.length) (hsg : signFromLetter [hc] = .ok sg) :
    parseCoordinate (L ++ '.' :: R) = .ok
      ((natOfDigits (L.take (L.length - 2)) : ℚ) +
        ((natOfDigits (L.drop (L.length - 2)) : ℚ) +
          (natOfDigits R : ℚ) / (10 : ℚ) ^ R.length) / 60) ∧
    (signFromLetter ['N'] = .ok 1 ∧ signFromLetter ['E'] = .ok 1 ∧
     signFromLetter ['S'] = .ok (-1) ∧ signFromLetter ['W'] = .ok (-1) ∧
     (∀ u : Chars, signFromLetter u = .error .valueError ↔
       ¬ (u.map Char.toUpper = ['N'] ∨ u.map Char.toUpper = ['E'] ∨
          u.map Char.toUpper = ['S'] ∨ u.map Char.toUpper = ['W']))) ∧
    cleanCurrentSentence
      ⟨[("latitudeFloat", L ++ '.' :: R), ("latitudeHemisphere", [hc]),
        ("type", "GPGGA".toList)]⟩ clearAdapter =
      .ok { state := [],
            scratch := [("latitude", PyVal.coord ((sg : ℚ) *
              ((natOfDigits (L.take (L.length - 2)) : ℚ) +
                ((natOfDigits (L.drop (L.length - 2)) : ℚ) +
                  (natOfDigits R : ℚ) / (10 : ℚ) ^ R.length) / 60)) .latitude)] } := by
  have hparse := parseCoordinate_eq L R hL hR hlen
  refine ⟨hparse, ⟨by decide, by decide, by decide, by decide,
    signFromLetter_error_iff⟩, ?_⟩
  set M : ℚ := (natOfDigits (L.take (L.length - 2)) : ℚ) +
      ((natOfDigits (L.drop (L.length - 2)) : ℚ) +
        (natOfDigits R : ℚ) / (10 : ℚ) ^ R.length) / 60 with hM
  have hM0 : 0 ≤ M := by
    rw [hM]
    positivity
  have hsort : sortKeys (Sentence.presentAttributes
      ⟨[("latitudeFloat", L ++ '.' :: R), ("latitudeHemisphere", [hc]),
        ("type", "GPGGA".toList)]⟩) =
      ["latitudeFloat", "latitudeHemisphere", "type"] := rfl
  have step1 : applyFixer "latitudeFloat"
      ⟨[("latitudeFloat", L ++ '.' :: R), ("latitudeHemisphere", [hc]),
        ("type", "GPGGA".toList)]⟩ clearAdapter =
      .ok { state := [], scratch := [("latitude", PyVal.coord M .latitude)] } := by
    show (match parseCoordinate (L ++ '.' :: R) with
          | .ok q =>
            Except.ok ({ state := ([] : Dict PyVal),
                         scratch := dset ([] : Dict PyVal) "latitude"
                           (PyVal.coord q .latitude) } : Adapter)
          | .error e => Except.error e) = _
    rw [hparse]
    rfl
  have step2 : applyFixer "latitudeHemisphere"
      ⟨[("latitudeFloat", L ++ '.' :: R), ("latitudeHemisphere", [hc]),
        ("type", "GPGGA".toList)]⟩
      { state := [], scratch := [("latitude", PyVal.coord M .latitude)] } =
      .ok { state := [],
            scratch := [("latitude", PyVal.coord ((sg : ℚ) * M) .latitude)] } := by
    show (match signFromLetter [hc] with
          | .error e => Except.error e
          | .ok sign =>
            match setSignPy sign (PyVal.coord M .latitude) with
            | .ok v2 =>
              Except.ok ({ state := ([] : Dict PyVal),
                           scratch := dset [("latitude", PyVal.coord M .latitude)]
                             "latitude" v2 } : Adapter)
            | .error e => Except.error e) = _
    rw [hsg]
    show Except.ok ({ state := ([] : Dict PyVal),
                      scratch := [("latitude",
                        PyVal.coord ((sg : ℚ) * abs M) .latitude)] } : Adapter) = _
    rw [abs_of_nonneg hM0]
  have step3 : applyFixer "type"
      ⟨[("latitudeFloat", L ++ '.' :: R), ("latitudeHemisphere", [hc]),
        ("type", "GPGGA".toList)]⟩
      { state := [],
        scratch := [("latitude", PyVal.coord ((sg : ℚ) * M) .latitude)] } =
      .ok { state := [],
            scratch := [("latitude", PyVal.coord ((sg : ℚ) * M) .latitude)] } := rfl
  unfold cleanCurrentSentence
  rw [hsort]
  simp only [List.foldlM_cons, List.foldlM_nil, step1, except_bind_ok, step2, step3]
  rfl

/-- Closed instance of the coordinate theorem at `4807.038` with hemisphere
`S`: magnitude 48 + 7.038/60, sign −1, signed coordinate written to the
scratch map. -/
theorem c7_coordinate_two_phase_witness :
    parseCoordinate (['4', '8', '0', '7'] ++ '.' :: ['0', '3', '8']) = .ok
      ((natOfDigits (['4', '8', '0', '7'].take (['4', '8', '0', '7'].length - 2)) : ℚ) +
        ((natOfDigits (['4', '8', '0', '7'].drop (['4', '8', '0', '7'].length - 2)) : ℚ) +
          (natOfDigits ['0', '3', '8'] : ℚ) / (10 : ℚ) ^ ['0', '3', '8'].length) / 60) ∧
    (signFromLetter ['N'] = .ok 1 ∧ signFromLetter ['E'] = .ok 1 ∧
     signFromLetter ['S'] = .ok (-1) ∧ signFromLetter ['W'] = .ok (-1) ∧
     (∀ u : Chars, signFromLetter u = .error .valueError ↔
       ¬ (u.map Char.toUpper = ['N'] ∨ u.map Char.toUpper = ['E'] ∨
          u.map Char.toUpper = ['S'] ∨ u.map Char.toUpper = ['W']))) ∧
    cleanCurrentSentence
      ⟨[("latitudeFloat", ['4', '8', '0', '7'] ++ '.' :: ['0', '3', '8']),
        ("latitudeHemisphere", ['S']), ("type", "GPGGA".toList)]⟩ clearAdapter =
      .ok { state := [],
            scratch := [("latitude", PyVal.coord (((-1 : Int) : ℚ) *
              ((natOfDigits (['4', '8', '0', '7'].take
                  (['4', '8', '0', '7'].length - 2)) : ℚ) +
                ((natOfDigits (['4', '8', '0', '7'].drop
                    (['4', '8', '0', '7'].length - 2)) : ℚ) +
                  (natOfDigits ['0', '3', '8'] : ℚ) /
                    (10 : ℚ) ^ ['0', '3', '8'].length) / 60)) .latitude)] } :=
  c7_coordinate_two_phase ['4', '8', '0', '7'] ['0', '3', '8'] 'S' (-1)
    (by decide) (by decide) (by decide) (by decide)

end Nmea
